import Mathlib

/-!
Verification development for the `letta-cowork` Electron IPC layer.

The repository's coordination layer lives in `src/electron/ipc-handlers.ts`
(the event router), `src/electron/libs/runtime-state.ts` (the in-memory
session table) and the message renderer (`MessageCard`).  This file gives a
shallow embedding of that layer: the process-wide mutable maps become an
explicit `RouterState` threaded through the handlers, the asynchronous
external runner (`runLetta`, an external collaborator defined outside the
embedded sources) becomes an abstract `RunnerBehavior` input describing the
callbacks it fires and whether it resolves with a handle or throws, and
exceptions are modelled by totality: every handler is a total Lean function,
mirroring the fact that the TypeScript handlers catch runner failures
locally and contain no other throwing operations.

JavaScript `Map` objects are modelled as association lists with
first-occurrence lookup; `Map.set` replaces the first binding of the key in
place and appends otherwise, `Map.delete` removes the key's bindings.
-/

namespace LettaCowork

/-! ## Data model (runtime-state.ts and types.ts) -/

/-- `SessionStatus` from runtime-state.ts / types.ts:
`"idle" | "running" | "completed" | "error"`. -/
inductive SessionStatus where
  | idle
  | running
  | completed
  | error
deriving DecidableEq, Repr

/-- A permission decision (`PermissionResult` / `CanUseToolResponse` from the
external SDK, consumed opaquely); modelled as an abstract string payload. -/
abbrev PermissionResult := String

/-- `PendingPermission` from runtime-state.ts.  The `resolve` callback is a
closure created by the external runner; we model its identity by `resolveId`
so that invocations of a particular callback can be counted, and `input`
(typed `unknown` in the source) as a string payload. -/
structure PendingPermission where
  toolUseId : String
  toolName : String
  input : String
  resolveId : Nat
deriving DecidableEq, Repr

/-- `RuntimeSession` from runtime-state.ts.  `pendingPermissions` is the
session's `Map<string, PendingPermission>`; `abortController` is never
assigned by the embedded sources and is modelled by an abstract `Option Nat`. -/
structure RuntimeSession where
  conversationId : String
  agentId : Option String
  status : SessionStatus
  pendingPermissions : List (String × PendingPermission)
  abortController : Option Nat
deriving DecidableEq, Repr

/-! ## JavaScript `Map` operations as association lists -/

/-- `Map.get`: first binding of the key, if any. -/
def mapGet {α : Type} : List (String × α) → String → Option α
  | [], _ => none
  | (k, v) :: rest, key => if k = key then some v else mapGet rest key

/-- `Map.set`: replace the first binding of the key in place, or append a new
binding at the end (JS `Map.set` keeps the original insertion position of an
existing key). -/
def mapSet {α : Type} : List (String × α) → String → α → List (String × α)
  | [], key, v => [(key, v)]
  | (k, w) :: rest, key, v =>
      if k = key then (key, v) :: rest else (k, w) :: mapSet rest key v

/-- `Map.delete`: remove the key's bindings. -/
def mapDelete {α : Type} (m : List (String × α)) (key : String) : List (String × α) :=
  m.filter (fun p => !(p.1 == key))

/-- The keys of a map, in order. -/
def mapKeys {α : Type} (m : List (String × α)) : List String :=
  m.map Prod.fst

/-! ## Session table operations (runtime-state.ts) -/

/-- The fields of `Partial<RuntimeSession>` actually passed to
`updateSession` anywhere in the embedded sources: every call site updates
only `status`. -/
structure SessionUpdates where
  status : Option SessionStatus
deriving DecidableEq, Repr

/-- `Object.assign(session, updates)` restricted to the fields of
`SessionUpdates`. -/
def applyUpdates (s : RuntimeSession) (u : SessionUpdates) : RuntimeSession :=
  { s with status := u.status.getD s.status }

/-- `createRuntimeSession` from runtime-state.ts: build a fresh session with
status `"idle"` and an empty `pendingPermissions` map, store it under the
conversation id (replacing any existing entry), and return it. -/
def createRuntimeSession (tbl : List (String × RuntimeSession)) (conversationId : String) :
    List (String × RuntimeSession) × RuntimeSession :=
  let session : RuntimeSession :=
    { conversationId := conversationId
      agentId := none
      status := .idle
      pendingPermissions := []
      abortController := none }
  (mapSet tbl conversationId session, session)

/-- `getSession` from runtime-state.ts. -/
def getSession (tbl : List (String × RuntimeSession)) (conversationId : String) :
    Option RuntimeSession :=
  mapGet tbl conversationId

/-- `updateSession` from runtime-state.ts: a no-op returning the table
unchanged when the id is absent, otherwise `Object.assign` the updates onto
the stored session.  (The TypeScript return value — the session or
`undefined` — is ignored by every call site in the embedded sources.) -/
def updateSession (tbl : List (String × RuntimeSession)) (conversationId : String)
    (u : SessionUpdates) : List (String × RuntimeSession) :=
  match mapGet tbl conversationId with
  | none => tbl
  | some s => mapSet tbl conversationId (applyUpdates s u)

/-- `deleteSession` from runtime-state.ts (`sessions.delete`). -/
def deleteSession (tbl : List (String × RuntimeSession)) (conversationId : String) :
    List (String × RuntimeSession) :=
  mapDelete tbl conversationId

/-! ## Events (types.ts) -/

/-- `StreamMessage` from types.ts: the SDK message union (consumed opaquely;
only the fields the renderer reads are modelled) plus the local
`user_prompt` variant. -/
inductive StreamMessage where
  | init (conversationId : Option String) (model : Option String)
  | assistant (content : String)
  | reasoning (content : String)
  | toolCall (toolCallId : Option String) (toolName : String) (toolInput : String)
  | toolResult (toolCallId : Option String) (content : String) (isError : Bool)
  | result (success : Bool) (error : Option String)
  | userPrompt (prompt : String)
deriving DecidableEq, Repr

/-- `SessionInfo` from types.ts (payload of `session.list`; always emitted
empty by the router). -/
structure SessionInfo where
  id : String
  title : String
  status : SessionStatus
  lettaConversationId : Option String
  cwd : Option String
  createdAt : Nat
  updatedAt : Nat
deriving DecidableEq, Repr

/-- `ServerEvent` from types.ts.  Optional payload fields are `Option`s; a
field that is `none` corresponds to the property being absent from the JSON
payload (so `"sessionId" in e.payload` is false for a `runner.error` whose
`sessionId` is `none`). -/
inductive ServerEvent where
  | streamMessage (sessionId : String) (message : StreamMessage)
  | streamUserPrompt (sessionId : String) (prompt : String)
  | sessionStatus (sessionId : String) (status : SessionStatus)
      (title : Option String) (cwd : Option String) (error : Option String)
  | sessionList (sessions : List SessionInfo)
  | sessionHistory (sessionId : String) (status : SessionStatus)
      (messages : List StreamMessage)
  | sessionDeleted (sessionId : String)
  | permissionRequest (sessionId : String) (toolUseId : String)
      (toolName : String) (input : String)
  | runnerError (sessionId : Option String) (message : String)
deriving DecidableEq, Repr

/-! ## Router state (module-level mutable state of ipc-handlers.ts) -/

/-- The process-wide mutable state of the router:
`sessions` (runtime-state.ts), `runnerHandles` (ipc-handlers.ts, handles
modelled by abstract `Nat` identities), plus two observation logs —
`aborted` records every `handle.abort()` call, and `resolutions` records
every invocation of a pending permission's `resolve` callback (by callback
identity and the result it was passed). -/
structure RouterState where
  sessions : List (String × RuntimeSession)
  runnerHandles : List (String × Nat)
  aborted : List Nat
  resolutions : List (Nat × PermissionResult)
deriving DecidableEq, Repr

/-- The state at process start: all maps empty. -/
def initialState : RouterState :=
  { sessions := [], runnerHandles := [], aborted := [], resolutions := [] }

/-- `emit` from ipc-handlers.ts: on a `session.status` event, update the
runtime session table's status for that id (a no-op for an absent id), then
broadcast the event.  The returned list is the broadcast; pairing the
updated state with it reflects that the table update happens before the
broadcast. -/
def emit (st : RouterState) (e : ServerEvent) : RouterState × List ServerEvent :=
  match e with
  | .sessionStatus sessionId status _ _ _ =>
      ({ st with sessions := updateSession st.sessions sessionId { status := some status } }, [e])
  | _ => (st, [e])

/-! ## The external runner as an abstract behavior

`runLetta` (libs/runner.ts) is invoked with `onEvent` / `onSessionUpdate`
callbacks and either resolves with a `RunnerHandle` or rejects.  Callbacks
may fire both before the returned promise settles (while `await runLetta`
is still suspended, so the local `handle` variable is still `null`) and
after it resolves.  A `RunnerBehavior` records exactly that nondeterministic
interaction so the router can be verified against every runner behavior. -/

/-- One callback fired by the runner: a session update carrying an optional
`lettaConversationId`, or a server event handed to `onEvent`. -/
inductive RunnerCallback where
  | sessionUpdate (lettaConversationId : Option String)
  | event (e : ServerEvent)
deriving DecidableEq, Repr

/-- How the `runLetta` promise settles: resolve with a handle (after which
the `late` callbacks fire with the handle in scope), or reject with a thrown
value.  Thrown values are modelled as the string `String(error)` produces. -/
inductive RunnerOutcome where
  | ok (handle : Nat) (late : List RunnerCallback)
  | throws (err : String)
deriving DecidableEq, Repr

/-- A complete runner interaction: the callbacks fired before the promise
settles, then the outcome. -/
structure RunnerBehavior where
  callbacks : List RunnerCallback
  outcome : RunnerOutcome
deriving DecidableEq, Repr

/-- JavaScript truthiness of `updates.lettaConversationId`: a present,
non-empty string. -/
def optTruthy : Option String → Bool
  | some s => !(s == "")
  | none => false

/-- `payload.sessionId = conversationId` in the `onEvent` closure of
`session.start`: rewrite the `sessionId` field of an event that has one
(`"sessionId" in e.payload`); `session.list` payloads and `runner.error`
payloads built without a `sessionId` are left unchanged. -/
def rewriteSessionId (e : ServerEvent) (cid : String) : ServerEvent :=
  match e with
  | .streamMessage _ m => .streamMessage cid m
  | .streamUserPrompt _ p => .streamUserPrompt cid p
  | .sessionStatus _ st t c er => .sessionStatus cid st t c er
  | .sessionList ss => .sessionList ss
  | .sessionHistory _ st ms => .sessionHistory cid st ms
  | .sessionDeleted _ => .sessionDeleted cid
  | .permissionRequest _ tu tn i => .permissionRequest cid tu tn i
  | .runnerError so m =>
      match so with
      | some _ => .runnerError (some cid) m
      | none => .runnerError none m

/-! ## session.start (ipc-handlers.ts lines 51-104) -/

/-- The local mutable variables of the `session.start` handler:
`conversationId` (assigned by the first id-carrying session update) and
`handle` (assigned once `runLetta` resolves). -/
structure StartLocals where
  conversationId : Option String
  handle : Option Nat
deriving DecidableEq, Repr

/-- One callback step of the `session.start` handler.

`onEvent`: if `conversationId` is set and the payload has a `sessionId`,
rewrite it to `conversationId`, then `emit`.

`onSessionUpdate`: when the update carries a (truthy) `lettaConversationId`
and `conversationId` is still unset, record it, create the runtime session,
mark it running, register the runner handle if `runLetta` has already
resolved, and emit a `session.status` running event (titled by the
conversation id) followed by the `stream.user_prompt` echo. -/
def startStep (prompt : String) (cwd : Option String)
    (acc : RouterState × List ServerEvent × StartLocals) (cb : RunnerCallback) :
    RouterState × List ServerEvent × StartLocals :=
  let (st, out, loc) := acc
  match cb with
  | .event e =>
      let e' := match loc.conversationId with
        | some cid => rewriteSessionId e cid
        | none => e
      let (st', es) := emit st e'
      (st', out ++ es, loc)
  | .sessionUpdate lcid =>
      if optTruthy lcid ∧ loc.conversationId = none then
        match lcid with
        | some cid =>
            let st1 := { st with sessions := (createRuntimeSession st.sessions cid).1 }
            let st2 := { st1 with
              sessions := updateSession st1.sessions cid { status := some .running } }
            let st3 := match loc.handle with
              | some h => { st2 with runnerHandles := mapSet st2.runnerHandles cid h }
              | none => st2
            let (st4, es1) :=
              emit st3 (.sessionStatus cid .running (some cid) cwd none)
            let (st5, es2) := emit st4 (.streamUserPrompt cid prompt)
            (st5, out ++ es1 ++ es2, { loc with conversationId := some cid })
        | none => (st, out, loc)
      else (st, out, loc)

/-- The `session.start` handler: run the pre-resolution callbacks, then
either append the caught failure's `runner.error` broadcast (the `catch`
block changes no session state) or record the resolved handle in the local
`handle` variable and run the post-resolution callbacks. -/
def handleStart (st : RouterState) (prompt : String) (cwd : Option String)
    (rb : RunnerBehavior) : RouterState × List ServerEvent :=
  let start : RouterState × List ServerEvent × StartLocals :=
    (st, [], { conversationId := none, handle := none })
  let (st1, out1, loc1) := rb.callbacks.foldl (startStep prompt cwd) start
  match rb.outcome with
  | .throws err =>
      let (st2, es) := emit st1 (.runnerError none err)
      (st2, out1 ++ es)
  | .ok h late =>
      let (st2, out2, _) :=
        late.foldl (startStep prompt cwd) (st1, out1, { loc1 with handle := some h })
      (st2, out2)

/-! ## session.continue (ipc-handlers.ts lines 106-148) -/

/-- One callback step of the `session.continue` handler: `onEvent` is `emit`
itself (no rewriting) and `onSessionUpdate` is `() => {}`. -/
def continueStep (acc : RouterState × List ServerEvent) (cb : RunnerCallback) :
    RouterState × List ServerEvent :=
  match cb with
  | .sessionUpdate _ => acc
  | .event e =>
      let (st', es) := emit acc.1 e
      (st', acc.2 ++ es)

/-- Result of the `session.continue` handler.  `passedPermissions` records
the `pendingPermissions` map of the runtime session object handed to
`runLetta`. -/
structure ContinueResult where
  state : RouterState
  events : List ServerEvent
  passedPermissions : List (String × PendingPermission)
deriving DecidableEq, Repr

/-- The `session.continue` handler: fetch the runtime session (creating one
only when absent), mark it running, emit the running status and the prompt
echo, then invoke the runner with the session's existing `pendingPermissions`
map.  On resolution the handle is registered under the conversation id; on
rejection the session is marked errored and a `session.status` error event
carrying the stringified failure is emitted. -/
def handleContinue (st : RouterState) (sessionId : String) (prompt : String)
    (rb : RunnerBehavior) : ContinueResult :=
  let (tbl0, runtimeSession) :=
    match getSession st.sessions sessionId with
    | some s => (st.sessions, s)
    | none => createRuntimeSession st.sessions sessionId
  let st1 := { st with
    sessions := updateSession tbl0 sessionId { status := some .running } }
  let (st2, es1) := emit st1 (.sessionStatus sessionId .running none none none)
  let (st3, es2) := emit st2 (.streamUserPrompt sessionId prompt)
  let (st4, es3) := rb.callbacks.foldl continueStep (st3, [])
  match rb.outcome with
  | .ok h late =>
      let st5 := { st4 with runnerHandles := mapSet st4.runnerHandles sessionId h }
      let (st6, es4) := late.foldl continueStep (st5, [])
      { state := st6
        events := es1 ++ es2 ++ es3 ++ es4
        passedPermissions := runtimeSession.pendingPermissions }
  | .throws err =>
      let st5 := { st4 with
        sessions := updateSession st4.sessions sessionId { status := some .error } }
      let (st6, es4) := emit st5 (.sessionStatus sessionId .error none none (some err))
      { state := st6
        events := es1 ++ es2 ++ es3 ++ es4
        passedPermissions := runtimeSession.pendingPermissions }

/-! ## session.stop / session.delete (ipc-handlers.ts lines 150-179) -/

/-- The `session.stop` handler: abort and drop any registered runner handle,
mark the session idle (a no-op for an absent id), and broadcast the idle
status. -/
def handleStop (st : RouterState) (sessionId : String) : RouterState × List ServerEvent :=
  let st1 := match mapGet st.runnerHandles sessionId with
    | some h =>
        { st with
          aborted := st.aborted ++ [h]
          runnerHandles := mapDelete st.runnerHandles sessionId }
    | none => st
  let st2 := { st1 with
    sessions := updateSession st1.sessions sessionId { status := some .idle } }
  emit st2 (.sessionStatus sessionId .idle none none none)

/-- The `session.delete` handler: abort and drop any registered runner
handle, remove the session from the table, and broadcast `session.deleted`. -/
def handleDelete (st : RouterState) (sessionId : String) : RouterState × List ServerEvent :=
  let st1 := match mapGet st.runnerHandles sessionId with
    | some h =>
        { st with
          aborted := st.aborted ++ [h]
          runnerHandles := mapDelete st.runnerHandles sessionId }
    | none => st
  let st2 := { st1 with sessions := deleteSession st1.sessions sessionId }
  emit st2 (.sessionDeleted sessionId)

/-! ## session.list / session.history (ipc-handlers.ts lines 32-49) -/

/-- The `session.list` handler: stubbed, emits an empty session list. -/
def handleList (st : RouterState) : RouterState × List ServerEvent :=
  emit st (.sessionList [])

/-- The `session.history` handler: stubbed, emits an empty message list with
the stored session's status, defaulting to `"idle"` for an unknown id
(`getSession(conversationId)?.status || "idle"`; every status string is
non-empty, so `||` is a default for the absent case only). -/
def handleHistory (st : RouterState) (sessionId : String) : RouterState × List ServerEvent :=
  let status := match getSession st.sessions sessionId with
    | some s => s.status
    | none => .idle
  emit st (.sessionHistory sessionId status [])

/-! ## permission.response (ipc-handlers.ts lines 181-190) -/

/-- Modelled from the spec: the `resolve` closure of a `PendingPermission` is
constructed in `libs/runner.ts`, which is not among the embedded sources —
only its call site in ipc-handlers.ts is.  Per the spec's data model, a
pending permission is "resolved exactly once by a matching response event"
and never persisted, so the callback, when invoked, records the decision and
removes its own entry (keyed by its captured `toolUseId`) from the session's
`pendingPermissions` map. -/
def invokeResolve (st : RouterState) (sessionId : String) (pending : PendingPermission)
    (result : PermissionResult) : RouterState :=
  { st with
    resolutions := st.resolutions ++ [(pending.resolveId, result)]
    sessions :=
      match mapGet st.sessions sessionId with
      | none => st.sessions
      | some s =>
          mapSet st.sessions sessionId
            { s with pendingPermissions := mapDelete s.pendingPermissions pending.toolUseId } }

/-- The `permission.response` handler: silently ignore an unknown session;
otherwise look up the pending entry by `toolUseId` and invoke its resolve
callback when present (a no-op when absent).  No event is broadcast. -/
def handlePermissionResponse (st : RouterState) (sessionId : String) (toolUseId : String)
    (result : PermissionResult) : RouterState × List ServerEvent :=
  match getSession st.sessions sessionId with
  | none => (st, [])
  | some session =>
      match mapGet session.pendingPermissions toolUseId with
      | none => (st, [])
      | some pending => (invokeResolve st sessionId pending result, [])

/-! ## The event router (handleClientEvent) -/

/-- `ClientEvent` from types.ts.  For `session.start` and `session.continue`
the nondeterministic interaction with the external runner is part of the
input. -/
inductive ClientEvent where
  | sessionStart (title : String) (prompt : String) (cwd : Option String)
      (allowedTools : Option String) (rb : RunnerBehavior)
  | sessionContinue (sessionId : String) (prompt : String) (rb : RunnerBehavior)
  | sessionStop (sessionId : String)
  | sessionDelete (sessionId : String)
  | sessionList
  | sessionHistory (sessionId : String)
  | permissionResponse (sessionId : String) (toolUseId : String) (result : PermissionResult)
deriving DecidableEq, Repr

/-- Result of handling one client event: the new router state, the events
broadcast (in order), and the number of `runLetta` invocations performed
(read off the source: one in `session.start`, one in `session.continue`,
none elsewhere). -/
structure HandlerResult where
  state : RouterState
  events : List ServerEvent
  runnerCalls : Nat
deriving DecidableEq, Repr

/-- `handleClientEvent` from ipc-handlers.ts: dispatch on the event type. -/
def handleClientEvent (st : RouterState) (ev : ClientEvent) : HandlerResult :=
  match ev with
  | .sessionList =>
      let (st', es) := handleList st
      { state := st', events := es, runnerCalls := 0 }
  | .sessionHistory sid =>
      let (st', es) := handleHistory st sid
      { state := st', events := es, runnerCalls := 0 }
  | .sessionStart _ prompt cwd _ rb =>
      let (st', es) := handleStart st prompt cwd rb
      { state := st', events := es, runnerCalls := 1 }
  | .sessionContinue sid prompt rb =>
      let r := handleContinue st sid prompt rb
      { state := r.state, events := r.events, runnerCalls := 1 }
  | .sessionStop sid =>
      let (st', es) := handleStop st sid
      { state := st', events := es, runnerCalls := 0 }
  | .sessionDelete sid =>
      let (st', es) := handleDelete st sid
      { state := st', events := es, runnerCalls := 0 }
  | .permissionResponse sid tu res =>
      let (st', es) := handlePermissionResponse st sid tu res
      { state := st', events := es, runnerCalls := 0 }

/-- Fold a sequence of client events through the router from a state. -/
def runEvents (st : RouterState) (evs : List ClientEvent) : RouterState :=
  evs.foldl (fun s ev => (handleClientEvent s ev).state) st

/-! ## The message renderer (MessageCard) -/

/-- The visual output of `MessageCard`: one constructor per card component.
Only the data the claims concern is carried. -/
inductive RenderedCard where
  | userPromptCard (prompt : String)
  | initCard (conversationId : Option String) (model : Option String)
  | assistantCard (content : String)
  | reasoningCard (content : String)
  | toolCallCard (toolCallId : Option String) (toolName : String) (toolInput : String)
  | toolResultCard (toolCallId : Option String) (content : String) (isError : Bool)
  | errorCard (text : String)
deriving DecidableEq, Repr

/-- JavaScript `x || d` for an optional string field: the string when it is
present and non-empty, `d` when the field is absent or the string is empty
(both falsy). -/
def jsOrElse (x : Option String) (d : String) : String :=
  match x with
  | some s => if s == "" then d else s
  | none => d

/-- `MessageCard`: map a stream message to its card, or `none` where the
component returns `null`.  A `result` message with `success` renders
nothing; a failed `result` renders an error card showing
`sdkMessage.error || "Unknown error"` — the error text when it is a
present, non-empty string, and `"Unknown error"` otherwise. -/
def MessageCard : StreamMessage → Option RenderedCard
  | .userPrompt p => some (.userPromptCard p)
  | .init cid model => some (.initCard cid model)
  | .assistant c => some (.assistantCard c)
  | .reasoning c => some (.reasoningCard c)
  | .toolCall id n i => some (.toolCallCard id n i)
  | .toolResult id c e => some (.toolResultCard id c e)
  | .result success err =>
      if success then none else some (.errorCard (jsOrElse err "Unknown error"))

/-! ## Observations on events and states used by the verified properties -/

/-- Whether a server event is a `session.status` event. -/
def isSessionStatusEvent : ServerEvent → Bool
  | .sessionStatus _ _ _ _ _ => true
  | _ => false

/-- Whether a server event is a `stream.message` event. -/
def isStreamMessageEvent : ServerEvent → Bool
  | .streamMessage _ _ => true
  | _ => false

/-- Whether a server event is a `session.status` event with status
`"running"` for the given conversation id. -/
def isRunningStatusFor (cid : String) : ServerEvent → Bool
  | .sessionStatus sid status _ _ _ => decide (sid = cid ∧ status = SessionStatus.running)
  | _ => false

/-- How many `session.status` running broadcasts for the given conversation
id a list of events contains. -/
def countRunningStatus (cid : String) (evs : List ServerEvent) : Nat :=
  evs.countP (isRunningStatusFor cid)

/-- A runner callback that hands the router a `stream.message` event, or a
session update (whatever it carries). -/
def cbIsStreamEvent : RunnerCallback → Bool
  | .event e => isStreamMessageEvent e
  | .sessionUpdate _ => true

/-- A runner callback that does not deliver a (truthy) conversation id. -/
def cbNoConversationId : RunnerCallback → Bool
  | .sessionUpdate l => !(optTruthy l)
  | .event _ => true

/-- The pending permission stored for a session id and tool-use id, when
both the session and the entry exist. -/
def lookupPending (st : RouterState) (sid toolUseId : String) : Option PendingPermission :=
  match getSession st.sessions sid with
  | none => none
  | some s => mapGet s.pendingPermissions toolUseId

/-- Whether a client event is a `permission.response`. -/
def isPermissionResponse : ClientEvent → Bool
  | .permissionResponse _ _ _ => true
  | _ => false

/-- Whether a client event is a `permission.response` matching the given
session id and tool-use id. -/
def isMatchingResponse (sid toolUseId : String) : ClientEvent → Bool
  | .permissionResponse s u _ => decide (s = sid ∧ u = toolUseId)
  | _ => false

/-- Whether handling `ev` in state `st` invokes the resolve callback of the
pending permission stored at `(sid, toolUseId)`: the event is a matching
response and the entry is present, which is exactly the guard under which
the handler calls `pending.resolve`. -/
def respInvokes (st : RouterState) (sid toolUseId : String) (ev : ClientEvent) : Bool :=
  isMatchingResponse sid toolUseId ev && (lookupPending st sid toolUseId).isSome

/-- How many events of a sequence, processed in order from `st`, invoke the
resolve callback of the pending permission stored at `(sid, toolUseId)`.
(Across `permission.response` events no entry is ever added or replaced, so
the slot identifies one callback.) -/
def countInvocations (st : RouterState) (sid toolUseId : String) : List ClientEvent → Nat
  | [] => 0
  | ev :: rest =>
      (if respInvokes st sid toolUseId ev then 1 else 0)
        + countInvocations (handleClientEvent st ev).state sid toolUseId rest

/-- The runner-handle store maps each conversation id to at most one handle:
its key list has no duplicates. -/
def handlesKeysNodup (st : RouterState) : Prop :=
  (mapKeys st.runnerHandles).Nodup

/-- Every pending permission of a session is stored under its own
`toolUseId` — true of every entry the runner registers, since it keys the
map by the `toolUseId` the resolve closure captures. -/
def sessionPendingWF (s : RuntimeSession) : Bool :=
  s.pendingPermissions.all (fun q => q.2.toolUseId == q.1)

/-- `sessionPendingWF` for every stored session. -/
def statePendingWF (st : RouterState) : Bool :=
  st.sessions.all (fun e => sessionPendingWF e.2)

/-! ## Lemmas about the map operations -/

theorem mapSet_cons_eq {α : Type} (k : String) (w v : α) (rest : List (String × α)) :
    mapSet ((k, w) :: rest) k v = (k, v) :: rest := by
  simp [mapSet]

theorem mapSet_cons_ne {α : Type} (k' k : String) (w v : α) (rest : List (String × α))
    (h : k' ≠ k) : mapSet ((k', w) :: rest) k v = (k', w) :: mapSet rest k v := by
  simp [mapSet, h]

theorem mapGet_mapSet_self {α : Type} (m : List (String × α)) (k : String) (v : α) :
    mapGet (mapSet m k v) k = some v := by
  induction m with
  | nil => simp [mapGet, mapSet]
  | cons p rest ih =>
      obtain ⟨k', w⟩ := p
      by_cases h : k' = k
      · simp [mapGet, mapSet, h]
      · simp [mapGet, mapSet, h, ih]

theorem mapGet_mapSet_ne {α : Type} (m : List (String × α)) (k j : String) (v : α)
    (h : j ≠ k) : mapGet (mapSet m k v) j = mapGet m j := by
  induction m with
  | nil => simp [mapGet, mapSet, Ne.symm h]
  | cons p rest ih =>
      obtain ⟨k', w⟩ := p
      by_cases hk : k' = k
      · subst hk
        simp [mapGet, mapSet, Ne.symm h]
      · simp [mapGet, mapSet, hk, ih]

theorem mapSet_mapSet_self {α : Type} (m : List (String × α)) (k : String) (v w : α) :
    mapSet (mapSet m k v) k w = mapSet m k w := by
  induction m with
  | nil => simp [mapSet]
  | cons p rest ih =>
      obtain ⟨k', u⟩ := p
      by_cases h : k' = k
      · simp [mapSet, h]
      · simp [mapSet, h, ih]

theorem mapGet_mapDelete_self {α : Type} (m : List (String × α)) (k : String) :
    mapGet (mapDelete m k) k = none := by
  induction m with
  | nil => simp [mapGet, mapDelete]
  | cons p rest ih =>
      obtain ⟨k', w⟩ := p
      by_cases h : k' = k
      · subst h
        simpa [mapDelete, List.filter_cons] using ih
      · simpa [mapDelete, List.filter_cons, h, mapGet] using ih

theorem mapGet_mapDelete_ne {α : Type} (m : List (String × α)) (k j : String)
    (h : j ≠ k) : mapGet (mapDelete m k) j = mapGet m j := by
  induction m with
  | nil => simp [mapGet, mapDelete]
  | cons p rest ih =>
      obtain ⟨k', w⟩ := p
      by_cases hk : k' = k
      · subst hk
        simpa [mapDelete, List.filter_cons, mapGet, Ne.symm h] using ih
      · have hb : (k' == k) = false := by simp [hk]
        simp only [mapDelete] at ih
        simp [mapDelete, List.filter_cons, hb, mapGet, ih]

theorem mapDelete_mapDelete_self {α : Type} (m : List (String × α)) (k : String) :
    mapDelete (mapDelete m k) k = mapDelete m k := by
  simp [mapDelete, List.filter_filter]

theorem mapKeys_mapSet_subset {α : Type} (m : List (String × α)) (k : String) (v : α)
    (j : String) : j ∈ mapKeys (mapSet m k v) → j = k ∨ j ∈ mapKeys m := by
  induction m with
  | nil =>
      intro hj
      simp [mapKeys, mapSet] at hj
      exact Or.inl hj
  | cons p rest ih =>
      intro hj
      obtain ⟨k', w⟩ := p
      by_cases hk : k' = k
      · subst hk
        rw [mapSet_cons_eq] at hj
        simp only [mapKeys, List.map_cons, List.mem_cons] at hj ⊢
        tauto
      · rw [mapSet_cons_ne _ _ _ _ _ hk] at hj
        simp only [mapKeys, List.map_cons, List.mem_cons] at hj ⊢
        rcases hj with hj | hj
        · exact Or.inr (Or.inl hj)
        · rcases ih hj with h1 | h1
          · exact Or.inl h1
          · exact Or.inr (Or.inr h1)

theorem mapKeys_mapSet_nodup {α : Type} (m : List (String × α)) (k : String) (v : α)
    (h : (mapKeys m).Nodup) : (mapKeys (mapSet m k v)).Nodup := by
  induction m with
  | nil => simp [mapKeys, mapSet]
  | cons p rest ih =>
      obtain ⟨k', w⟩ := p
      simp only [mapKeys, List.map_cons, List.nodup_cons] at h
      by_cases hk : k' = k
      · subst hk
        rw [mapSet_cons_eq]
        simp only [mapKeys, List.map_cons, List.nodup_cons]
        exact ⟨h.1, h.2⟩
      · rw [mapSet_cons_ne _ _ _ _ _ hk]
        simp only [mapKeys, List.map_cons, List.nodup_cons]
        refine ⟨?_, ih h.2⟩
        intro hmem
        rcases mapKeys_mapSet_subset rest k v k' hmem with h1 | h1
        · exact hk h1
        · exact h.1 (by simpa [mapKeys] using h1)

theorem mapKeys_mapDelete_nodup {α : Type} (m : List (String × α)) (k : String)
    (h : (mapKeys m).Nodup) : (mapKeys (mapDelete m k)).Nodup := by
  exact List.Nodup.sublist (List.Sublist.map Prod.fst (List.filter_sublist m)) h

/-! ## Lemmas about the session table operations -/

theorem updateSession_absent (tbl : List (String × RuntimeSession)) (cid : String)
    (u : SessionUpdates) (h : mapGet tbl cid = none) :
    updateSession tbl cid u = tbl := by
  simp [updateSession, h]

theorem mapGet_updateSession_self (tbl : List (String × RuntimeSession)) (cid : String)
    (u : SessionUpdates) (s : RuntimeSession) (h : mapGet tbl cid = some s) :
    mapGet (updateSession tbl cid u) cid = some (applyUpdates s u) := by
  simp [updateSession, h, mapGet_mapSet_self]

theorem mapGet_updateSession_ne (tbl : List (String × RuntimeSession)) (cid j : String)
    (u : SessionUpdates) (h : j ≠ cid) :
    mapGet (updateSession tbl cid u) j = mapGet tbl j := by
  unfold updateSession
  cases hg : mapGet tbl cid with
  | none => rfl
  | some s => simp [mapGet_mapSet_ne _ _ _ _ h]

/-- `updateSession` never changes a stored session's `pendingPermissions`. -/
theorem updateSession_pendingPermissions (tbl : List (String × RuntimeSession))
    (cid j : String) (u : SessionUpdates) :
    (mapGet (updateSession tbl cid u) j).map RuntimeSession.pendingPermissions
      = (mapGet tbl j).map RuntimeSession.pendingPermissions := by
  by_cases h : j = cid
  · subst h
    cases hg : mapGet tbl j with
    | none => rw [updateSession_absent _ _ _ hg, hg]
    | some s => simp [mapGet_updateSession_self _ _ _ _ hg, hg, applyUpdates]
  · rw [mapGet_updateSession_ne _ _ _ _ h]

theorem applyUpdates_status (s : RuntimeSession) (status : SessionStatus) :
    applyUpdates s { status := some status } = { s with status := status } := by
  simp [applyUpdates]

/-- Updating a session's status twice with the same value is the same as
updating it once. -/
theorem updateSession_status_idem (tbl : List (String × RuntimeSession)) (sid : String)
    (s : SessionStatus) :
    updateSession (updateSession tbl sid { status := some s }) sid { status := some s }
      = updateSession tbl sid { status := some s } := by
  cases hg : mapGet tbl sid with
  | none => rw [updateSession_absent _ _ _ hg, updateSession_absent _ _ _ hg]
  | some x =>
      simp only [updateSession, hg, mapGet_mapSet_self]
      rw [show applyUpdates (applyUpdates x { status := some s }) { status := some s }
            = applyUpdates x { status := some s } from by simp [applyUpdates],
          mapSet_mapSet_self]

/-- `emit` never changes a stored session's `pendingPermissions`. -/
theorem emit_pendingPermissions (st : RouterState) (e : ServerEvent) (j : String) :
    (mapGet (emit st e).1.sessions j).map RuntimeSession.pendingPermissions
      = (mapGet st.sessions j).map RuntimeSession.pendingPermissions := by
  cases e <;> simp [emit, updateSession_pendingPermissions]

/-- A `session.continue` runner callback never changes a stored session's
`pendingPermissions`. -/
theorem continueStep_pendingPermissions (acc : RouterState × List ServerEvent)
    (cb : RunnerCallback) (j : String) :
    (mapGet ((continueStep acc cb).1.sessions) j).map RuntimeSession.pendingPermissions
      = (mapGet acc.1.sessions j).map RuntimeSession.pendingPermissions := by
  cases cb with
  | sessionUpdate _ => rfl
  | event e => simpa [continueStep] using emit_pendingPermissions acc.1 e j

/-- Folding `session.continue` runner callbacks never changes a stored
session's `pendingPermissions`. -/
theorem continueFold_pendingPermissions (cbs : List RunnerCallback) :
    ∀ (acc : RouterState × List ServerEvent) (j : String),
      (mapGet ((cbs.foldl continueStep acc).1.sessions) j).map
          RuntimeSession.pendingPermissions
        = (mapGet acc.1.sessions j).map RuntimeSession.pendingPermissions := by
  induction cbs with
  | nil => intro acc j; rfl
  | cons cb rest ih =>
      intro acc j
      rw [List.foldl_cons, ih, continueStep_pendingPermissions]

/-! ## C10: result-message rendering -/

/-- C10 counterexample: for a failed `result` whose error is present but
the empty string, the component renders `"Unknown error"` — not the
message's error text `""` — because the source uses the falsy check
`sdkMessage.error || "Unknown error"`. -/
theorem result_empty_error_text_cex :
    MessageCard (.result false (some "")) = some (.errorCard "Unknown error") ∧
    ("Unknown error" : String) ≠ "" := by
  constructor
  · decide
  · decide

/-- C10 (amended): `MessageCard` renders nothing for a `result` message
with `success = true`; a `result` with `success = false` renders an error
card showing `error || "Unknown error"` — the message's error text when it
is a present, non-empty string, and `"Unknown error"` when it is absent or
empty (falsy); and only such failed results render an error card. -/
theorem message_card_result_rendering :
    (∀ err, MessageCard (.result true err) = none) ∧
    (∀ err, MessageCard (.result false err)
        = some (.errorCard (jsOrElse err "Unknown error"))) ∧
    (∀ e, e ≠ "" → MessageCard (.result false (some e)) = some (.errorCard e)) ∧
    (∀ m text, MessageCard m = some (.errorCard text) →
        ∃ err, m = .result false err ∧ text = jsOrElse err "Unknown error") := by
  refine ⟨fun err => rfl, fun err => rfl, ?_, ?_⟩
  · intro e he
    simp [MessageCard, jsOrElse, he]
  · intro m text h
    cases m <;> simp [MessageCard] at h
    case result success err =>
      cases success with
      | false =>
          simp at h
          exact ⟨err, rfl, h.symm⟩
      | true => simp at h

/-- Witness for the amended C10 at concrete messages. -/
theorem message_card_result_rendering_witness :
    MessageCard (.result true none) = none ∧
    MessageCard (.result false none) = some (.errorCard "Unknown error") ∧
    MessageCard (.result false (some "boom")) = some (.errorCard "boom") ∧
    (∃ err, StreamMessage.result false (some "boom") = .result false err ∧
        "boom" = jsOrElse err "Unknown error") :=
  ⟨message_card_result_rendering.1 none,
   message_card_result_rendering.2.1 none,
   message_card_result_rendering.2.2.1 "boom" (by decide),
   message_card_result_rendering.2.2.2 (.result false (some "boom")) "boom" (by decide)⟩

/-! ## C7: list and history are stubbed -/

/-- C7: `session.list` emits an empty session list, and `session.history`
emits an empty message list whose status is the stored session's status
(or `"idle"` for an unknown id), both without invoking the external runner
(`runnerCalls = 0`) and without changing state. -/
theorem list_history_stubbed :
    (∀ st, handleClientEvent st .sessionList
        = { state := st, events := [.sessionList []], runnerCalls := 0 }) ∧
    (∀ st sid s, getSession st.sessions sid = some s →
        handleClientEvent st (.sessionHistory sid)
          = { state := st, events := [.sessionHistory sid s.status []], runnerCalls := 0 }) ∧
    (∀ st sid, getSession st.sessions sid = none →
        handleClientEvent st (.sessionHistory sid)
          = { state := st, events := [.sessionHistory sid .idle []], runnerCalls := 0 }) := by
  refine ⟨fun st => rfl, ?_, ?_⟩
  · intro st sid s h
    simp [handleClientEvent, handleHistory, emit, h]
  · intro st sid h
    simp [handleClientEvent, handleHistory, emit, h]

/-- Witness for C7 at concrete states. -/
theorem list_history_stubbed_witness :
    handleClientEvent initialState .sessionList
      = { state := initialState, events := [.sessionList []], runnerCalls := 0 } ∧
    handleClientEvent
        { initialState with sessions := [("c",
            { conversationId := "c", agentId := none, status := .running,
              pendingPermissions := [], abortController := none })] }
        (.sessionHistory "c")
      = { state := { initialState with sessions := [("c",
            { conversationId := "c", agentId := none, status := .running,
              pendingPermissions := [], abortController := none })] },
          events := [.sessionHistory "c" .running []], runnerCalls := 0 } ∧
    handleClientEvent initialState (.sessionHistory "c")
      = { state := initialState, events := [.sessionHistory "c" .idle []], runnerCalls := 0 } :=
  ⟨list_history_stubbed.1 initialState,
   list_history_stubbed.2.1 _ "c"
     { conversationId := "c", agentId := none, status := .running,
       pendingPermissions := [], abortController := none } (by decide),
   list_history_stubbed.2.2 initialState "c" (by decide)⟩

/-! ## C6: permission responses with missing session or entry -/

/-- C6: a `permission.response` for an unknown session id is silently
ignored — no state change, no broadcast, no runner call — and likewise
when the session exists but has no pending entry for the tool-use id. -/
theorem permission_response_missing_noop :
    (∀ st sid toolUseId result, getSession st.sessions sid = none →
        handleClientEvent st (.permissionResponse sid toolUseId result)
          = { state := st, events := [], runnerCalls := 0 }) ∧
    (∀ st sid toolUseId result s, getSession st.sessions sid = some s →
        mapGet s.pendingPermissions toolUseId = none →
        handleClientEvent st (.permissionResponse sid toolUseId result)
          = { state := st, events := [], runnerCalls := 0 }) := by
  constructor
  · intro st sid tu r h
    simp [handleClientEvent, handlePermissionResponse, h]
  · intro st sid tu r s hs hp
    simp [handleClientEvent, handlePermissionResponse, hs, hp]

/-- Witness for C6 at concrete states. -/
theorem permission_response_missing_noop_witness :
    handleClientEvent initialState (.permissionResponse "s" "t" "allow")
      = { state := initialState, events := [], runnerCalls := 0 } ∧
    handleClientEvent
        { initialState with sessions := [("s",
            { conversationId := "s", agentId := none, status := .idle,
              pendingPermissions := [], abortController := none })] }
        (.permissionResponse "s" "t" "allow")
      = { state := { initialState with sessions := [("s",
            { conversationId := "s", agentId := none, status := .idle,
              pendingPermissions := [], abortController := none })] },
          events := [], runnerCalls := 0 } :=
  ⟨permission_response_missing_noop.1 initialState "s" "t" "allow" (by decide),
   permission_response_missing_noop.2 _ "s" "t" "allow"
     { conversationId := "s", agentId := none, status := .idle,
       pendingPermissions := [], abortController := none } (by decide) (by decide)⟩

/-! ## C8: emit keeps the table in sync with status events -/

/-- C8: `emit` updates an existing session's stored status to the status of
a `session.status` event before broadcasting it (the broadcast is the
second component, produced with the already-updated state); a
`session.status` event for an unknown id and every event of any other type
leave the state unchanged, and every event is broadcast as-is. -/
theorem emit_status_updates_table :
    (∀ st sid status title cwd err s, getSession st.sessions sid = some s →
        getSession (emit st (.sessionStatus sid status title cwd err)).1.sessions sid
          = some { s with status := status }) ∧
    (∀ st sid status title cwd err, getSession st.sessions sid = none →
        (emit st (.sessionStatus sid status title cwd err)).1 = st) ∧
    (∀ st e, isSessionStatusEvent e = false → emit st e = (st, [e])) ∧
    (∀ st e, (emit st e).2 = [e]) := by
  refine ⟨?_, ?_, ?_, ?_⟩
  · intro st sid status t c er s h
    have h2 := mapGet_updateSession_self st.sessions sid { status := some status } s h
    simp only [emit, getSession] at *
    rw [h2, applyUpdates_status]
  · intro st sid status t c er h
    simp [emit, updateSession_absent _ _ _ h]
  · intro st e h
    cases e <;> simp_all [emit, isSessionStatusEvent]
  · intro st e
    cases e <;> rfl

/-- Witness for C8 at concrete inputs. -/
theorem emit_status_updates_table_witness :
    getSession (emit
        { initialState with sessions := [("c",
            { conversationId := "c", agentId := none, status := .idle,
              pendingPermissions := [], abortController := none })] }
        (.sessionStatus "c" .running none none none)).1.sessions "c"
      = some { conversationId := "c", agentId := none, status := .running,
               pendingPermissions := [], abortController := none } ∧
    (emit initialState (.sessionStatus "c" .idle none none none)).1 = initialState ∧
    emit initialState (.sessionDeleted "x") = (initialState, [.sessionDeleted "x"]) ∧
    (emit initialState (.sessionDeleted "x")).2 = [.sessionDeleted "x"] :=
  ⟨emit_status_updates_table.1 _ "c" .running none none none
     { conversationId := "c", agentId := none, status := .idle,
       pendingPermissions := [], abortController := none } (by decide),
   emit_status_updates_table.2.1 initialState "c" .idle none none none (by decide),
   emit_status_updates_table.2.2.1 initialState (.sessionDeleted "x") (by decide),
   emit_status_updates_table.2.2.2 initialState (.sessionDeleted "x")⟩

/-! ## C2: stop and delete are no-ops on absent sessions and idempotent -/

/-- C2: handling `session.stop` or `session.delete` never throws (the
handlers are total functions), a stopped absent session stays absent, a
deleted session is absent afterwards (in particular an absent one stays
absent), and repeating the same stop or delete request yields the same
final state. -/
theorem stop_delete_idempotent_noop :
    (∀ st sid, getSession st.sessions sid = none →
        getSession (handleClientEvent st (.sessionStop sid)).state.sessions sid = none) ∧
    (∀ st sid,
        getSession (handleClientEvent st (.sessionDelete sid)).state.sessions sid = none) ∧
    (∀ st sid,
        (handleClientEvent (handleClientEvent st (.sessionStop sid)).state
            (.sessionStop sid)).state
          = (handleClientEvent st (.sessionStop sid)).state) ∧
    (∀ st sid,
        (handleClientEvent (handleClientEvent st (.sessionDelete sid)).state
            (.sessionDelete sid)).state
          = (handleClientEvent st (.sessionDelete sid)).state) := by
  refine ⟨?_, ?_, ?_, ?_⟩
  · intro st sid h
    simp only [getSession] at h
    unfold handleClientEvent handleStop
    cases hh : mapGet st.runnerHandles sid with
    | none => simp [hh, emit, updateSession_absent _ _ _ h, h, getSession]
    | some hdl => simp [hh, emit, updateSession_absent _ _ _ h, h, getSession]
  · intro st sid
    unfold handleClientEvent handleDelete
    cases hh : mapGet st.runnerHandles sid with
    | none => simp [hh, emit, getSession, deleteSession, mapGet_mapDelete_self]
    | some hdl => simp [hh, emit, getSession, deleteSession, mapGet_mapDelete_self]
  · intro st sid
    unfold handleClientEvent handleStop
    cases hh : mapGet st.runnerHandles sid with
    | none => simp [hh, emit, updateSession_status_idem]
    | some hdl => simp [hh, emit, mapGet_mapDelete_self, updateSession_status_idem]
  · intro st sid
    unfold handleClientEvent handleDelete
    cases hh : mapGet st.runnerHandles sid with
    | none => simp [hh, emit, deleteSession, mapDelete_mapDelete_self]
    | some hdl =>
        simp [hh, emit, deleteSession, mapGet_mapDelete_self, mapDelete_mapDelete_self]

/-- Witness for C2 at a concrete state and id. -/
theorem stop_delete_idempotent_noop_witness :
    getSession (handleClientEvent initialState (.sessionStop "c")).state.sessions "c" = none ∧
    getSession (handleClientEvent initialState (.sessionDelete "c")).state.sessions "c" = none ∧
    (handleClientEvent (handleClientEvent initialState (.sessionStop "c")).state
        (.sessionStop "c")).state
      = (handleClientEvent initialState (.sessionStop "c")).state ∧
    (handleClientEvent (handleClientEvent initialState (.sessionDelete "c")).state
        (.sessionDelete "c")).state
      = (handleClientEvent initialState (.sessionDelete "c")).state :=
  ⟨stop_delete_idempotent_noop.1 initialState "c" (by decide),
   stop_delete_idempotent_noop.2.1 initialState "c",
   stop_delete_idempotent_noop.2.2.1 initialState "c",
   stop_delete_idempotent_noop.2.2.2 initialState "c"⟩

/-! ## C9: session creation and continue's reuse of the pending map -/

/-- C9: `createRuntimeSession` always returns a session with status
`"idle"` and an empty `pendingPermissions` map, and stores it under the
conversation id so that the stored entry is the fresh session — replacing,
and thereby discarding, any existing entry's status and pending
permissions.  `session.continue`, by contrast, creates a session only when
none is stored: when one exists, the `pendingPermissions` map passed to the
runner is the stored session's map and the stored entry keeps it; when none
exists, the created session's empty map is passed and a stored entry exists
afterwards. -/
theorem create_session_semantics :
    (∀ tbl cid, (createRuntimeSession tbl cid).2.status = .idle
        ∧ (createRuntimeSession tbl cid).2.pendingPermissions = []
        ∧ mapGet (createRuntimeSession tbl cid).1 cid
            = some (createRuntimeSession tbl cid).2) ∧
    (∀ st sid prompt rb s, getSession st.sessions sid = some s →
        (handleContinue st sid prompt rb).passedPermissions = s.pendingPermissions
        ∧ (getSession (handleContinue st sid prompt rb).state.sessions sid).map
              RuntimeSession.pendingPermissions = some s.pendingPermissions) ∧
    (∀ st sid prompt rb, getSession st.sessions sid = none →
        (handleContinue st sid prompt rb).passedPermissions = []
        ∧ (getSession (handleContinue st sid prompt rb).state.sessions sid).map
              RuntimeSession.pendingPermissions = some []) := by
  refine ⟨?_, ?_, ?_⟩
  · intro tbl cid
    exact ⟨rfl, rfl, mapGet_mapSet_self _ _ _⟩
  · intro st sid prompt rb s hs
    cases hro : rb.outcome with
    | ok h late =>
        constructor
        · simp [handleContinue, hs, hro]
        · simp [handleContinue, hs, hro, emit, getSession,
            continueFold_pendingPermissions, updateSession_pendingPermissions]
          simp only [getSession] at hs
          simp [hs]
    | throws err =>
        constructor
        · simp [handleContinue, hs, hro]
        · simp [handleContinue, hs, hro, emit, getSession,
            continueFold_pendingPermissions, updateSession_pendingPermissions]
          simp only [getSession] at hs
          simp [hs]
  · intro st sid prompt rb hs
    have hs' := hs
    simp only [getSession] at hs'
    cases hro : rb.outcome with
    | ok h late =>
        constructor
        · simp [handleContinue, hs, hro, createRuntimeSession]
        · simp [handleContinue, hs, hs', hro, createRuntimeSession, emit, getSession,
            continueFold_pendingPermissions, updateSession_pendingPermissions,
            mapGet_mapSet_self]
    | throws err =>
        constructor
        · simp [handleContinue, hs, hro, createRuntimeSession]
        · simp [handleContinue, hs, hs', hro, createRuntimeSession, emit, getSession,
            continueFold_pendingPermissions, updateSession_pendingPermissions,
            mapGet_mapSet_self]

/-- Witness for C9 at concrete inputs. -/
theorem create_session_semantics_witness :
    ((createRuntimeSession [] "c").2.status = .idle
      ∧ (createRuntimeSession [] "c").2.pendingPermissions = []
      ∧ mapGet (createRuntimeSession [] "c").1 "c" = some (createRuntimeSession [] "c").2) ∧
    ((handleContinue
          { initialState with sessions := [("c",
              { conversationId := "c", agentId := none, status := .completed,
                pendingPermissions := [("t",
                  { toolUseId := "t", toolName := "Bash", input := "ls", resolveId := 0 })],
                abortController := none })] }
          "c" "go" { callbacks := [], outcome := .ok 7 [] }).passedPermissions
        = [("t", { toolUseId := "t", toolName := "Bash", input := "ls", resolveId := 0 })]
      ∧ (getSession (handleContinue
          { initialState with sessions := [("c",
              { conversationId := "c", agentId := none, status := .completed,
                pendingPermissions := [("t",
                  { toolUseId := "t", toolName := "Bash", input := "ls", resolveId := 0 })],
                abortController := none })] }
          "c" "go" { callbacks := [], outcome := .ok 7 [] }).state.sessions "c").map
            RuntimeSession.pendingPermissions
        = some [("t", { toolUseId := "t", toolName := "Bash", input := "ls", resolveId := 0 })]) ∧
    ((handleContinue initialState "c" "go"
          { callbacks := [], outcome := .ok 7 [] }).passedPermissions = []
      ∧ (getSession (handleContinue initialState "c" "go"
          { callbacks := [], outcome := .ok 7 [] }).state.sessions "c").map
            RuntimeSession.pendingPermissions = some []) :=
  ⟨create_session_semantics.1 [] "c",
   create_session_semantics.2.1 _ "c" "go" { callbacks := [], outcome := .ok 7 [] }
     { conversationId := "c", agentId := none, status := .completed,
       pendingPermissions := [("t",
         { toolUseId := "t", toolName := "Bash", input := "ls", resolveId := 0 })],
       abortController := none } (by decide),
   create_session_semantics.2.2 initialState "c" "go"
     { callbacks := [], outcome := .ok 7 [] } (by decide)⟩

/-! ## C1: runner failure handling -/

/-- C1 counterexample: a `session.start` whose runner acknowledges the
conversation id `"c1"` (creating a running session) and then throws
`"boom"` leaves the stored status at `"running"` — the `session.start`
catch block emits `runner.error` but never marks the session's status
`"error"`, contradicting the claim that every start/continue failure marks
the session errored. -/
theorem start_failure_not_marked_error_cex :
    (getSession (handleClientEvent initialState
        (.sessionStart "T" "p" none none
          { callbacks := [.sessionUpdate (some "c1")],
            outcome := .throws "boom" })).state.sessions "c1").map RuntimeSession.status
      = some .running ∧
    (some SessionStatus.running ≠ some SessionStatus.error) := by
  constructor
  · decide
  · decide

/-- C1 (amended): a failing `session.start` is caught locally (the handler
is total, so nothing is rethrown) and emits a `runner.error` event whose
message is the stringified thrown value, leaving the session table as the
runner callbacks left it — in particular a session created by a
session-update acknowledgement keeps status `"running"`.  A failing
`session.continue` is caught locally, emits a `session.status` event with
status `"error"` carrying the stringified thrown value, and marks the
stored session's status `"error"`. -/
theorem runner_failure_handling :
    (∀ st title prompt cwd allowed c err, c ≠ "" →
        (handleClientEvent st (.sessionStart title prompt cwd allowed
            { callbacks := [.sessionUpdate (some c)], outcome := .throws err })).events
          = [.sessionStatus c .running (some c) cwd none,
             .streamUserPrompt c prompt,
             .runnerError none err]
        ∧ (getSession (handleClientEvent st (.sessionStart title prompt cwd allowed
            { callbacks := [.sessionUpdate (some c)],
              outcome := .throws err })).state.sessions c).map RuntimeSession.status
            = some .running) ∧
    (∀ st sid prompt err,
        (handleClientEvent st (.sessionContinue sid prompt
            { callbacks := [], outcome := .throws err })).events
          = [.sessionStatus sid .running none none none,
             .streamUserPrompt sid prompt,
             .sessionStatus sid .error none none (some err)]
        ∧ (getSession (handleClientEvent st (.sessionContinue sid prompt
            { callbacks := [], outcome := .throws err })).state.sessions sid).map
              RuntimeSession.status = some .error) := by
  constructor
  · intro st title prompt cwd allowed c err hc
    have htr : optTruthy (some c) = true := by simp [optTruthy, hc]
    constructor
    · simp [handleClientEvent, handleStart, startStep, htr, emit]
    · simp [handleClientEvent, handleStart, startStep, htr, emit, getSession,
        createRuntimeSession, updateSession, mapGet_mapSet_self, applyUpdates]
  · intro st sid prompt err
    cases hs : mapGet st.sessions sid with
    | some s =>
        constructor
        · simp [handleClientEvent, handleContinue, getSession, hs, emit]
        · simp [handleClientEvent, handleContinue, getSession, hs, emit,
            updateSession, mapGet_mapSet_self, applyUpdates]
    | none =>
        constructor
        · simp [handleClientEvent, handleContinue, getSession, hs, emit,
            createRuntimeSession]
        · simp [handleClientEvent, handleContinue, getSession, hs, emit,
            createRuntimeSession, updateSession, mapGet_mapSet_self, applyUpdates]

/-- Witness for the amended C1 at concrete inputs. -/
theorem runner_failure_handling_witness :
    ((handleClientEvent initialState (.sessionStart "T" "p" none none
          { callbacks := [.sessionUpdate (some "c1")], outcome := .throws "boom" })).events
        = [.sessionStatus "c1" .running (some "c1") none none,
           .streamUserPrompt "c1" "p",
           .runnerError none "boom"]
      ∧ (getSession (handleClientEvent initialState (.sessionStart "T" "p" none none
          { callbacks := [.sessionUpdate (some "c1")],
            outcome := .throws "boom" })).state.sessions "c1").map RuntimeSession.status
          = some .running) ∧
    ((handleClientEvent initialState (.sessionContinue "c2" "q"
          { callbacks := [], outcome := .throws "bang" })).events
        = [.sessionStatus "c2" .running none none none,
           .streamUserPrompt "c2" "q",
           .sessionStatus "c2" .error none none (some "bang")]
      ∧ (getSession (handleClientEvent initialState (.sessionContinue "c2" "q"
          { callbacks := [], outcome := .throws "bang" })).state.sessions "c2").map
            RuntimeSession.status = some .error) :=
  ⟨runner_failure_handling.1 initialState "T" "p" none none "c1" "boom" (by decide),
   runner_failure_handling.2 initialState "c2" "q" "bang"⟩

/-! ## C5: the runner-handle store -/

/-- Before the conversation id arrives, `session.start` callbacks that
carry no id and only hand over stream messages change nothing but the
broadcast list, appending only stream messages. -/
theorem startFold_preUpdate (prompt : String) (cwd : Option String) :
    ∀ (cbs : List RunnerCallback) (st : RouterState) (out : List ServerEvent)
      (loc : StartLocals),
      cbs.all (fun cb => cbNoConversationId cb && cbIsStreamEvent cb) = true →
      loc.conversationId = none →
      ∃ extra, cbs.foldl (startStep prompt cwd) (st, out, loc) = (st, out ++ extra, loc)
        ∧ extra.all isStreamMessageEvent = true := by
  intro cbs
  induction cbs with
  | nil =>
      intro st out loc hall hloc
      exact ⟨[], by simp, rfl⟩
  | cons cb rest ih =>
      intro st out loc hall hloc
      simp only [List.all_cons, Bool.and_eq_true] at hall
      obtain ⟨⟨hnc, hse⟩, hrest⟩ := hall
      cases cb with
      | sessionUpdate l =>
          have hnt : optTruthy l = false := by
            simpa [cbNoConversationId] using hnc
          have hstep : startStep prompt cwd (st, out, loc) (.sessionUpdate l)
              = (st, out, loc) := by
            simp [startStep, hnt]
          rw [List.foldl_cons, hstep]
          exact ih st out loc hrest hloc
      | event e =>
          cases e
          case streamMessage sid m =>
              have hstep : startStep prompt cwd (st, out, loc)
                  (.event (.streamMessage sid m))
                  = (st, out ++ [.streamMessage sid m], loc) := by
                simp [startStep, hloc, emit]
              rw [List.foldl_cons, hstep]
              obtain ⟨extra, heq, hall2⟩ :=
                ih st (out ++ [.streamMessage sid m]) loc hrest hloc
              refine ⟨.streamMessage sid m :: extra, ?_, ?_⟩
              · simpa [List.append_assoc] using heq
              · simpa [isStreamMessageEvent] using hall2
          all_goals simp [cbIsStreamEvent, isStreamMessageEvent] at hse


/-- `emit` never touches the runner-handle store. -/
theorem emit_runnerHandles (st : RouterState) (e : ServerEvent) :
    (emit st e).1.runnerHandles = st.runnerHandles := by
  cases e <;> rfl

/-- A `session.start` callback step preserves uniqueness of handle keys. -/
theorem startStep_handles_nodup (prompt : String) (cwd : Option String)
    (acc : RouterState × List ServerEvent × StartLocals) (cb : RunnerCallback)
    (h : (mapKeys acc.1.runnerHandles).Nodup) :
    (mapKeys (startStep prompt cwd acc cb).1.runnerHandles).Nodup := by
  obtain ⟨st, out, loc⟩ := acc
  cases cb with
  | event e =>
      have he : (startStep prompt cwd (st, out, loc) (.event e)).1
          = (emit st (match loc.conversationId with
              | some cid => rewriteSessionId e cid
              | none => e)).1 := rfl
      rw [he, emit_runnerHandles]
      exact h
  | sessionUpdate lcid =>
      cases lcid with
      | none => simpa [startStep, optTruthy] using h
      | some cid =>
          by_cases hc : cid = ""
          · simpa [startStep, optTruthy, hc] using h
          · have htr : optTruthy (some cid) = true := by simp [optTruthy, hc]
            cases hloc : loc.conversationId with
            | some c0 => simpa [startStep, htr, hloc] using h
            | none =>
                cases hh : loc.handle with
                | none => simpa [startStep, htr, hloc, hh, emit] using h
                | some hd =>
                    simp [startStep, htr, hloc, hh, emit]
                    exact mapKeys_mapSet_nodup _ _ _ h

/-- Folding `session.start` callbacks preserves uniqueness of handle keys. -/
theorem startFold_handles_nodup (prompt : String) (cwd : Option String)
    (cbs : List RunnerCallback) :
    ∀ acc : RouterState × List ServerEvent × StartLocals,
      (mapKeys acc.1.runnerHandles).Nodup →
      (mapKeys (cbs.foldl (startStep prompt cwd) acc).1.runnerHandles).Nodup := by
  induction cbs with
  | nil => intro acc h; exact h
  | cons cb rest ih =>
      intro acc h
      rw [List.foldl_cons]
      exact ih _ (startStep_handles_nodup _ _ _ _ h)

/-- The `session.start` handler preserves uniqueness of handle keys. -/
theorem handleStart_handles_nodup (st : RouterState) (prompt : String)
    (cwd : Option String) (rb : RunnerBehavior)
    (h : (mapKeys st.runnerHandles).Nodup) :
    (mapKeys (handleStart st prompt cwd rb).1.runnerHandles).Nodup := by
  obtain ⟨cbs, outc⟩ := rb
  have h1 := startFold_handles_nodup prompt cwd cbs
      (st, ([] : List ServerEvent),
        ({ conversationId := none, handle := none } : StartLocals)) h
  cases outc with
  | throws err =>
      have he : (handleStart st prompt cwd ⟨cbs, .throws err⟩).1
          = (emit (cbs.foldl (startStep prompt cwd)
              (st, [], { conversationId := none, handle := none })).1
              (.runnerError none err)).1 := rfl
      rw [he, emit_runnerHandles]
      exact h1
  | ok hdl late =>
      have he : (handleStart st prompt cwd ⟨cbs, .ok hdl late⟩).1
          = (late.foldl (startStep prompt cwd)
              ((cbs.foldl (startStep prompt cwd)
                  (st, [], { conversationId := none, handle := none })).1,
               (cbs.foldl (startStep prompt cwd)
                  (st, [], { conversationId := none, handle := none })).2.1,
               { (cbs.foldl (startStep prompt cwd)
                  (st, [], { conversationId := none, handle := none })).2.2
                   with handle := some hdl })).1 := rfl
      rw [he]
      exact startFold_handles_nodup prompt cwd late _ h1

/-- A `session.continue` callback step never touches the handle store. -/
theorem continueStep_runnerHandles (acc : RouterState × List ServerEvent)
    (cb : RunnerCallback) :
    ((continueStep acc cb).1).runnerHandles = acc.1.runnerHandles := by
  cases cb with
  | sessionUpdate _ => rfl
  | event e =>
      have he : (continueStep acc (.event e)).1 = (emit acc.1 e).1 := rfl
      rw [he, emit_runnerHandles]

/-- Folding `session.continue` callbacks never touches the handle store. -/
theorem continueFold_runnerHandles (cbs : List RunnerCallback) :
    ∀ acc : RouterState × List ServerEvent,
      ((cbs.foldl continueStep acc).1).runnerHandles = acc.1.runnerHandles := by
  induction cbs with
  | nil => intro acc; rfl
  | cons cb rest ih =>
      intro acc
      rw [List.foldl_cons, ih, continueStep_runnerHandles]

/-- After a `session.continue` whose runner resolves with handle `hdl`, the
handle store is exactly the old store with `hdl` set under the conversation
id — replacing any prior handle for that id. -/
theorem handleContinue_handles_ok (st : RouterState) (sid prompt : String)
    (cbs : List RunnerCallback) (hdl : Nat) (late : List RunnerCallback) :
    (handleContinue st sid prompt
        { callbacks := cbs, outcome := .ok hdl late }).state.runnerHandles
      = mapSet st.runnerHandles sid hdl := by
  cases hs : mapGet st.sessions sid with
  | some s =>
      simp [handleContinue, getSession, hs, emit, continueFold_runnerHandles]
  | none =>
      simp [handleContinue, getSession, hs, emit, continueFold_runnerHandles]

/-- A failing `session.continue` leaves the handle store unchanged. -/
theorem handleContinue_handles_throws (st : RouterState) (sid prompt err : String)
    (cbs : List RunnerCallback) :
    (handleContinue st sid prompt
        { callbacks := cbs, outcome := .throws err }).state.runnerHandles
      = st.runnerHandles := by
  cases hs : mapGet st.sessions sid with
  | some s =>
      simp [handleContinue, getSession, hs, emit, continueFold_runnerHandles]
  | none =>
      simp [handleContinue, getSession, hs, emit, continueFold_runnerHandles]

/-- Handling any client event preserves uniqueness of handle keys. -/
theorem handleClientEvent_handles_nodup (st : RouterState) (ev : ClientEvent)
    (h : handlesKeysNodup st) : handlesKeysNodup (handleClientEvent st ev).state := by
  unfold handlesKeysNodup at *
  cases ev with
  | sessionStart t p c a rb => exact handleStart_handles_nodup st p c rb h
  | sessionContinue sid p rb =>
      obtain ⟨cbs, outc⟩ := rb
      cases outc with
      | ok hdl late =>
          have he : (handleClientEvent st (.sessionContinue sid p ⟨cbs, .ok hdl late⟩)).state
              = (handleContinue st sid p ⟨cbs, .ok hdl late⟩).state := rfl
          rw [he, handleContinue_handles_ok]
          exact mapKeys_mapSet_nodup _ _ _ h
      | throws err =>
          have he : (handleClientEvent st (.sessionContinue sid p ⟨cbs, .throws err⟩)).state
              = (handleContinue st sid p ⟨cbs, .throws err⟩).state := rfl
          rw [he, handleContinue_handles_throws]
          exact h
  | sessionStop sid =>
      cases hh : mapGet st.runnerHandles sid with
      | none => simpa [handleClientEvent, handleStop, hh, emit] using h
      | some hdl =>
          simp [handleClientEvent, handleStop, hh, emit]
          exact mapKeys_mapDelete_nodup _ _ h
  | sessionDelete sid =>
      cases hh : mapGet st.runnerHandles sid with
      | none => simpa [handleClientEvent, handleDelete, hh, emit] using h
      | some hdl =>
          simp [handleClientEvent, handleDelete, hh, emit]
          exact mapKeys_mapDelete_nodup _ _ h
  | sessionList => simpa [handleClientEvent, handleList, emit] using h
  | sessionHistory sid => simpa [handleClientEvent, handleHistory, emit] using h
  | permissionResponse sid tu r =>
      cases hs : mapGet st.sessions sid with
      | none => simpa [handleClientEvent, handlePermissionResponse, getSession, hs] using h
      | some s =>
          cases hp : mapGet s.pendingPermissions tu with
          | none =>
              simpa [handleClientEvent, handlePermissionResponse, getSession, hs, hp] using h
          | some pending =>
              simpa [handleClientEvent, handlePermissionResponse, getSession, hs, hp,
                invokeResolve] using h

/-- C5 counterexample: a `session.start` acknowledgement that fires before
`runLetta` resolves registers nothing — the local `handle` variable is
still `null`, so the `if (handle)` guard skips `runnerHandles.set` — and a
prior handle (here `5`) for the same conversation id survives instead of
being replaced by the new run's handle (`7`). -/
theorem start_ack_no_supersede_cex :
    mapGet (handleClientEvent
        { initialState with runnerHandles := [("c", 5)] }
        (.sessionStart "T" "p" none none
          { callbacks := [.sessionUpdate (some "c")],
            outcome := .ok 7 [] })).state.runnerHandles "c" = some 5 ∧
    some (5 : Nat) ≠ some 7 := by
  constructor
  · decide
  · decide

/-- C5 (amended): after any sequence of handled client events from process
start, the runner-handle store maps each conversation id to at most one
handle (its key list has no duplicates).  A `session.continue` whose runner
resolves with a handle leaves exactly that handle stored for the
conversation id, superseding any prior one.  A `session.start`
acknowledgement registers — and thereby replaces — the new run's handle
only when it fires after `runLetta` has resolved; an acknowledgement that
fires before resolution registers nothing, leaving the handle store (and
any prior handle for the id) unchanged. -/
theorem runner_handle_uniqueness :
    (∀ evs, handlesKeysNodup (runEvents initialState evs)) ∧
    (∀ st sid prompt cbs hdl late,
        mapGet (handleContinue st sid prompt
            { callbacks := cbs, outcome := .ok hdl late }).state.runnerHandles sid
          = some hdl) ∧
    (∀ st prompt cwd cbs c hdl,
        cbs.all (fun cb => cbNoConversationId cb && cbIsStreamEvent cb) = true →
        c ≠ "" →
        mapGet (handleStart st prompt cwd
            { callbacks := cbs,
              outcome := .ok hdl [.sessionUpdate (some c)] }).1.runnerHandles c
          = some hdl) ∧
    (∀ st prompt cwd cbs c hdl,
        cbs.all (fun cb => cbNoConversationId cb && cbIsStreamEvent cb) = true →
        c ≠ "" →
        (handleStart st prompt cwd
            { callbacks := cbs ++ [.sessionUpdate (some c)],
              outcome := .ok hdl [] }).1.runnerHandles
          = st.runnerHandles) := by
  refine ⟨?_, ?_, ?_, ?_⟩
  · have main : ∀ (evs : List ClientEvent) (st : RouterState),
        handlesKeysNodup st → handlesKeysNodup (runEvents st evs) := by
      intro evs
      induction evs with
      | nil => intro st h; exact h
      | cons ev rest ih =>
          intro st h
          exact ih _ (handleClientEvent_handles_nodup st ev h)
    intro evs
    exact main evs initialState (by simp [handlesKeysNodup, initialState, mapKeys])
  · intro st sid prompt cbs hdl late
    rw [handleContinue_handles_ok, mapGet_mapSet_self]
  · intro st prompt cwd cbs c hdl hall hc
    obtain ⟨extra, hA, _⟩ := startFold_preUpdate prompt cwd cbs st []
      { conversationId := none, handle := none } hall rfl
    have htr : optTruthy (some c) = true := by simp [optTruthy, hc]
    have hE : (handleStart st prompt cwd
        { callbacks := cbs, outcome := .ok hdl [.sessionUpdate (some c)] }).1
        = ([RunnerCallback.sessionUpdate (some c)].foldl (startStep prompt cwd)
            ((cbs.foldl (startStep prompt cwd)
                (st, [], { conversationId := none, handle := none })).1,
             (cbs.foldl (startStep prompt cwd)
                (st, [], { conversationId := none, handle := none })).2.1,
             { (cbs.foldl (startStep prompt cwd)
                (st, [], { conversationId := none, handle := none })).2.2
                 with handle := some hdl })).1 := rfl
    rw [hA] at hE
    rw [hE]
    simp [startStep, htr, emit, List.foldl_cons, List.foldl_nil, mapGet_mapSet_self]
  · intro st prompt cwd cbs c hdl hall hc
    obtain ⟨extra, hA, _⟩ := startFold_preUpdate prompt cwd cbs st []
      { conversationId := none, handle := none } hall rfl
    have htr : optTruthy (some c) = true := by simp [optTruthy, hc]
    have hE : (handleStart st prompt cwd
        { callbacks := cbs ++ [.sessionUpdate (some c)], outcome := .ok hdl [] }).1
        = ((cbs ++ [RunnerCallback.sessionUpdate (some c)]).foldl (startStep prompt cwd)
            (st, [], { conversationId := none, handle := none })).1 := rfl
    rw [hE, List.foldl_append, hA, List.foldl_cons, List.foldl_nil]
    simp [startStep, htr, emit]

/-- Witness for the amended C5 at concrete inputs, all from a state already
holding handle `5` for conversation `"c"`. -/
theorem runner_handle_uniqueness_witness :
    mapGet (handleContinue { initialState with runnerHandles := [("c", 5)] } "c" "p"
        { callbacks := [], outcome := .ok 7 [] }).state.runnerHandles "c" = some 7 ∧
    mapGet (handleStart { initialState with runnerHandles := [("c", 5)] } "p" none
        { callbacks := [],
          outcome := .ok 7 [.sessionUpdate (some "c")] }).1.runnerHandles "c"
      = some 7 ∧
    (handleStart { initialState with runnerHandles := [("c", 5)] } "p" none
        { callbacks := [.sessionUpdate (some "c")],
          outcome := .ok 7 [] }).1.runnerHandles
      = [("c", 5)] :=
  ⟨runner_handle_uniqueness.2.1 _ "c" "p" [] 7 [],
   runner_handle_uniqueness.2.2.1 _ "p" none [] "c" 7 (by decide) (by decide),
   (by
     simpa using runner_handle_uniqueness.2.2.2
       ({ initialState with runnerHandles := [("c", 5)] })
       "p" none [] "c" 7 (by decide) (by decide))⟩

/-! ## C4: exactly one running broadcast per acknowledged start -/

/-- A `stream.message` event is never a running-status broadcast. -/
theorem isRunningStatusFor_stream (c : String) (e : ServerEvent)
    (h : isStreamMessageEvent e = true) : isRunningStatusFor c e = false := by
  cases e <;> simp_all [isStreamMessageEvent, isRunningStatusFor]

/-- A list of `stream.message` events contains no running-status broadcast. -/
theorem countRunningStatus_stream_zero (c : String) (evs : List ServerEvent)
    (h : evs.all isStreamMessageEvent = true) : countRunningStatus c evs = 0 := by
  induction evs with
  | nil => rfl
  | cons e rest ih =>
      simp only [List.all_cons, Bool.and_eq_true] at h
      simp [countRunningStatus, List.countP_cons, isRunningStatusFor_stream c e h.1]
      simpa [countRunningStatus] using ih h.2

/-- After the conversation id is recorded, `session.start` callbacks that
only hand over stream messages change nothing but the broadcast list,
appending only (rewritten) stream messages; further session updates are
ignored. -/
theorem startFold_postUpdate (prompt : String) (cwd : Option String) (c : String) :
    ∀ (cbs : List RunnerCallback) (st : RouterState) (out : List ServerEvent)
      (loc : StartLocals),
      cbs.all cbIsStreamEvent = true →
      loc.conversationId = some c →
      ∃ extra, cbs.foldl (startStep prompt cwd) (st, out, loc) = (st, out ++ extra, loc)
        ∧ extra.all isStreamMessageEvent = true := by
  intro cbs
  induction cbs with
  | nil =>
      intro st out loc hall hloc
      exact ⟨[], by simp, rfl⟩
  | cons cb rest ih =>
      intro st out loc hall hloc
      simp only [List.all_cons, Bool.and_eq_true] at hall
      obtain ⟨hse, hrest⟩ := hall
      cases cb with
      | sessionUpdate l =>
          have hstep : startStep prompt cwd (st, out, loc) (.sessionUpdate l)
              = (st, out, loc) := by
            simp [startStep, hloc]
          rw [List.foldl_cons, hstep]
          exact ih st out loc hrest hloc
      | event e =>
          cases e
          case streamMessage sid m =>
              have hstep : startStep prompt cwd (st, out, loc)
                  (.event (.streamMessage sid m))
                  = (st, out ++ [.streamMessage c m], loc) := by
                simp [startStep, hloc, rewriteSessionId, emit]
              rw [List.foldl_cons, hstep]
              obtain ⟨extra, heq, hall2⟩ :=
                ih st (out ++ [.streamMessage c m]) loc hrest hloc
              refine ⟨.streamMessage c m :: extra, ?_, ?_⟩
              · simpa [List.append_assoc] using heq
              · simpa [isStreamMessageEvent] using hall2
          all_goals simp [cbIsStreamEvent, isStreamMessageEvent] at hse

/-- The id-carrying session update emits exactly the running-status
broadcast (titled by the conversation id) followed by the prompt echo, and
records the conversation id. -/
theorem startStep_update_snd (prompt : String) (cwd : Option String) (c : String)
    (hc : c ≠ "") (st : RouterState) (out : List ServerEvent) (hdl : Option Nat) :
    (startStep prompt cwd (st, out, { conversationId := none, handle := hdl })
        (.sessionUpdate (some c))).2
      = (out ++ [.sessionStatus c .running (some c) cwd none,
                 .streamUserPrompt c prompt],
         { conversationId := some c, handle := hdl }) := by
  have htr : optTruthy (some c) = true := by simp [optTruthy, hc]
  cases hdl <;> simp [startStep, htr, emit]

/-- C4: for a `session.start` whose runner callbacks are: any number of
stream messages and id-less session updates, then a session update carrying
conversation id `c`, then any further stream messages and session updates
(before or after resolution, or a thrown failure), the broadcast event list
decomposes around a single `session.status` running event for `c` followed
immediately by the prompt echo — so exactly one running status for `c` is
broadcast, and it precedes every stream message broadcast after the
acknowledgement. -/
theorem start_running_broadcast_unique (st : RouterState) (prompt : String)
    (cwd : Option String) (pre : List RunnerCallback) (c : String)
    (post : List RunnerCallback) (outc : RunnerOutcome)
    (h1 : pre.all (fun cb => cbNoConversationId cb && cbIsStreamEvent cb) = true)
    (h2 : post.all cbIsStreamEvent = true)
    (h3 : (match outc with
           | .ok _ late => late.all cbIsStreamEvent
           | .throws _ => true) = true)
    (hc : c ≠ "") :
    ∃ e1 e2,
      (handleStart st prompt cwd
          { callbacks := pre ++ .sessionUpdate (some c) :: post, outcome := outc }).2
        = e1 ++ .sessionStatus c .running (some c) cwd none
            :: .streamUserPrompt c prompt :: e2
      ∧ countRunningStatus c
          (handleStart st prompt cwd
            { callbacks := pre ++ .sessionUpdate (some c) :: post, outcome := outc }).2
          = 1 := by
  obtain ⟨extra1, hA, hs1⟩ := startFold_preUpdate prompt cwd pre st []
    { conversationId := none, handle := none } h1 rfl
  simp only [List.nil_append] at hA
  have hBsnd := startStep_update_snd prompt cwd c hc st extra1 none
  have hB : startStep prompt cwd (st, extra1, { conversationId := none, handle := none })
      (.sessionUpdate (some c))
      = ((startStep prompt cwd (st, extra1, { conversationId := none, handle := none })
            (.sessionUpdate (some c))).1,
         extra1 ++ [.sessionStatus c .running (some c) cwd none,
                    .streamUserPrompt c prompt],
         { conversationId := some c, handle := none }) :=
    Prod.ext rfl hBsnd
  obtain ⟨extra2, hC, hs2⟩ := startFold_postUpdate prompt cwd c post
    (startStep prompt cwd (st, extra1, { conversationId := none, handle := none })
        (.sessionUpdate (some c))).1
    (extra1 ++ [.sessionStatus c .running (some c) cwd none,
                .streamUserPrompt c prompt])
    { conversationId := some c, handle := none } h2 rfl
  have hFold : (pre ++ .sessionUpdate (some c) :: post).foldl (startStep prompt cwd)
      (st, [], { conversationId := none, handle := none })
      = ((startStep prompt cwd (st, extra1, { conversationId := none, handle := none })
            (.sessionUpdate (some c))).1,
         (extra1 ++ [.sessionStatus c .running (some c) cwd none,
                     .streamUserPrompt c prompt]) ++ extra2,
         { conversationId := some c, handle := none }) := by
    rw [List.foldl_append, hA, List.foldl_cons, hB]
    exact hC
  have hone : isRunningStatusFor c
      (.sessionStatus c .running (some c) cwd none) = true := by
    simp [isRunningStatusFor]
  have z1 : countRunningStatus c extra1 = 0 := countRunningStatus_stream_zero c extra1 hs1
  have z2 : countRunningStatus c extra2 = 0 := countRunningStatus_stream_zero c extra2 hs2
  simp only [countRunningStatus] at z1 z2
  cases outc with
  | throws err =>
      have hE : (handleStart st prompt cwd
          { callbacks := pre ++ .sessionUpdate (some c) :: post, outcome := .throws err }).2
          = ((pre ++ .sessionUpdate (some c) :: post).foldl (startStep prompt cwd)
              (st, [], { conversationId := none, handle := none })).2.1
            ++ [.runnerError none err] := rfl
      rw [hFold] at hE
      simp only [List.append_assoc, List.cons_append, List.singleton_append,
        List.nil_append] at hE
      refine ⟨extra1, extra2 ++ [.runnerError none err], ?_, ?_⟩
      · simpa using hE
      · rw [hE]
        simp [countRunningStatus, List.countP_append, List.countP_cons, hone,
          isRunningStatusFor, z1, z2]
  | ok hdl late =>
      have h3' : late.all cbIsStreamEvent = true := by simpa using h3
      obtain ⟨extra3, hD, hs3⟩ := startFold_postUpdate prompt cwd c late
        (startStep prompt cwd (st, extra1, { conversationId := none, handle := none })
            (.sessionUpdate (some c))).1
        ((extra1 ++ [.sessionStatus c .running (some c) cwd none,
                     .streamUserPrompt c prompt]) ++ extra2)
        { conversationId := some c, handle := some hdl } h3' rfl
      have z3 : countRunningStatus c extra3 = 0 := countRunningStatus_stream_zero c extra3 hs3
      simp only [countRunningStatus] at z3
      have hE : (handleStart st prompt cwd
          { callbacks := pre ++ .sessionUpdate (some c) :: post, outcome := .ok hdl late }).2
          = (late.foldl (startStep prompt cwd)
              (((pre ++ .sessionUpdate (some c) :: post).foldl (startStep prompt cwd)
                  (st, [], { conversationId := none, handle := none })).1,
               ((pre ++ .sessionUpdate (some c) :: post).foldl (startStep prompt cwd)
                  (st, [], { conversationId := none, handle := none })).2.1,
               { ((pre ++ .sessionUpdate (some c) :: post).foldl (startStep prompt cwd)
                  (st, [], { conversationId := none, handle := none })).2.2
                   with handle := some hdl })).2.1 := rfl
      rw [hFold] at hE
      simp only at hE
      rw [hD] at hE
      simp only at hE
      refine ⟨extra1, extra2 ++ extra3, ?_, ?_⟩
      · simpa [List.append_assoc] using hE
      · rw [hE]
        simp [countRunningStatus, List.countP_append, List.countP_cons, hone,
          isRunningStatusFor, z1, z2, z3]

/-- Witness for C4 at a concrete start interaction. -/
theorem start_running_broadcast_unique_witness :
    ∃ e1 e2,
      (handleStart initialState "p" none
          { callbacks := [.event (.streamMessage "x" (.assistant "hi")),
                          .sessionUpdate (some "c"),
                          .event (.streamMessage "x" (.assistant "more"))],
            outcome := .ok 3 [] }).2
        = e1 ++ .sessionStatus "c" .running (some "c") none none
            :: .streamUserPrompt "c" "p" :: e2
      ∧ countRunningStatus "c"
          (handleStart initialState "p" none
            { callbacks := [.event (.streamMessage "x" (.assistant "hi")),
                            .sessionUpdate (some "c"),
                            .event (.streamMessage "x" (.assistant "more"))],
              outcome := .ok 3 [] }).2 = 1 :=
  start_running_broadcast_unique initialState "p" none
    [.event (.streamMessage "x" (.assistant "hi"))] "c"
    [.event (.streamMessage "x" (.assistant "more"))] (.ok 3 [])
    (by decide) (by decide) (by decide) (by decide)

/-! ## C3: pending permissions are resolved exactly once -/

theorem mapGet_mem {α : Type} (m : List (String × α)) (k : String) (v : α)
    (h : mapGet m k = some v) : (k, v) ∈ m := by
  induction m with
  | nil => simp [mapGet] at h
  | cons p rest ih =>
      obtain ⟨k', w⟩ := p
      by_cases hk : k' = k
      · subst hk
        simp [mapGet] at h
        subst h
        exact List.mem_cons_self _ _
      · simp [mapGet, hk] at h
        exact List.mem_cons_of_mem _ (ih h)

theorem mem_mapSet {α : Type} (m : List (String × α)) (k : String) (v : α)
    (x : String × α) (h : x ∈ mapSet m k v) : x = (k, v) ∨ x ∈ m := by
  induction m with
  | nil =>
      simp [mapSet] at h
      exact Or.inl h
  | cons p rest ih =>
      obtain ⟨k', w⟩ := p
      by_cases hk : k' = k
      · subst hk
        rw [mapSet_cons_eq] at h
        rcases List.mem_cons.mp h with h1 | h1
        · exact Or.inl h1
        · exact Or.inr (List.mem_cons_of_mem _ h1)
      · rw [mapSet_cons_ne _ _ _ _ _ hk] at h
        rcases List.mem_cons.mp h with h1 | h1
        · exact Or.inr (by simp [h1])
        · rcases ih h1 with h2 | h2
          · exact Or.inl h2
          · exact Or.inr (List.mem_cons_of_mem _ h2)

/-- In a well-formed state, a pending permission found under a key carries
that key as its `toolUseId`. -/
theorem pending_toolUseId_eq (st : RouterState) (sid t : String) (p : PendingPermission)
    (hwf : statePendingWF st = true) (h : lookupPending st sid t = some p) :
    p.toolUseId = t := by
  cases hs : mapGet st.sessions sid with
  | none => simp [lookupPending, getSession, hs] at h
  | some s =>
      simp only [lookupPending, getSession, hs] at h
      have hmem : (sid, s) ∈ st.sessions := mapGet_mem _ _ _ hs
      have hswf : sessionPendingWF s = true := by
        have := (List.all_eq_true.mp hwf) (sid, s) hmem
        simpa using this
      have hpm : (t, p) ∈ s.pendingPermissions := mapGet_mem _ _ _ h
      have := (List.all_eq_true.mp hswf) (t, p) hpm
      simpa using this

/-- Handling a permission response preserves well-formedness of the pending
maps: resolution only removes entries. -/
theorem statePendingWF_response (st : RouterState) (s u : String) (r : PermissionResult)
    (h : statePendingWF st = true) :
    statePendingWF (handleClientEvent st (.permissionResponse s u r)).state = true := by
  cases hs : mapGet st.sessions s with
  | none => simpa [handleClientEvent, handlePermissionResponse, getSession, hs] using h
  | some session =>
      cases hp : mapGet session.pendingPermissions u with
      | none =>
          simpa [handleClientEvent, handlePermissionResponse, getSession, hs, hp] using h
      | some pending =>
          have hstate : (handleClientEvent st (.permissionResponse s u r)).state.sessions
              = mapSet st.sessions s { session with
                  pendingPermissions := mapDelete session.pendingPermissions pending.toolUseId } := by
            simp [handleClientEvent, handlePermissionResponse, getSession, hs, hp,
              invokeResolve]
          simp only [statePendingWF, hstate]
          rw [List.all_eq_true]
          intro x hx
          rcases mem_mapSet _ _ _ _ hx with h1 | h1
          · subst h1
            simp only [sessionPendingWF]
            rw [List.all_eq_true]
            intro q hq
            have hq' : q ∈ session.pendingPermissions := by
              simp only [mapDelete] at hq
              exact List.mem_of_mem_filter hq
            have hswf : sessionPendingWF session = true := by
              have := (List.all_eq_true.mp h) (s, session) (mapGet_mem _ _ _ hs)
              simpa using this
            exact (List.all_eq_true.mp hswf) q hq'
          · exact (List.all_eq_true.mp h) x h1

/-- A matching response to a present entry removes it: the entry is gone
from the pending map afterwards. -/
theorem lookupPending_after_match (st : RouterState) (sid t : String)
    (r : PermissionResult) (p : PendingPermission)
    (hwf : statePendingWF st = true) (h : lookupPending st sid t = some p) :
    lookupPending (handleClientEvent st (.permissionResponse sid t r)).state sid t
      = none := by
  have htu : p.toolUseId = t := pending_toolUseId_eq st sid t p hwf h
  cases hs : mapGet st.sessions sid with
  | none => simp [lookupPending, getSession, hs] at h
  | some session =>
      cases hp : mapGet session.pendingPermissions t with
      | none => simp [lookupPending, getSession, hs, hp] at h
      | some pending =>
          have hpp : pending = p := by
            simpa [lookupPending, getSession, hs, hp] using h
          subst hpp
          simp [handleClientEvent, handlePermissionResponse, invokeResolve,
            lookupPending, getSession, hs, hp, mapGet_mapSet_self, htu,
            mapGet_mapDelete_self]

/-- A non-matching response leaves the entry at `(sid, t)` exactly as it
was. -/
theorem lookupPending_preserved (st : RouterState) (sid t s u : String)
    (r : PermissionResult) (hwf : statePendingWF st = true)
    (hne : isMatchingResponse sid t (.permissionResponse s u r) = false) :
    lookupPending (handleClientEvent st (.permissionResponse s u r)).state sid t
      = lookupPending st sid t := by
  have hne' : ¬(s = sid ∧ u = t) := by simpa [isMatchingResponse] using hne
  cases hs : mapGet st.sessions s with
  | none => simp [handleClientEvent, handlePermissionResponse, getSession, hs]
  | some session =>
      cases hp : mapGet session.pendingPermissions u with
      | none => simp [handleClientEvent, handlePermissionResponse, getSession, hs, hp]
      | some q =>
          have hqu : q.toolUseId = u := pending_toolUseId_eq st s u q hwf
            (by simp [lookupPending, getSession, hs, hp])
          have hstate : (handleClientEvent st (.permissionResponse s u r)).state.sessions
              = mapSet st.sessions s { session with
                  pendingPermissions := mapDelete session.pendingPermissions q.toolUseId } := by
            simp [handleClientEvent, handlePermissionResponse, getSession, hs, hp,
              invokeResolve]
          by_cases hss : s = sid
          · subst hss
            have hut : u ≠ t := fun hut => hne' ⟨rfl, hut⟩
            simp only [lookupPending, getSession, hstate, mapGet_mapSet_self, hs]
            rw [hqu, mapGet_mapDelete_ne _ _ _ (Ne.symm hut)]
          · simp only [lookupPending, getSession, hstate]
            rw [mapGet_mapSet_ne]
            exact fun hh => hss hh.symm

/-- An absent entry stays absent across any permission response. -/
theorem lookupPending_none_preserved (st : RouterState) (sid t s u : String)
    (r : PermissionResult) (h : lookupPending st sid t = none) :
    lookupPending (handleClientEvent st (.permissionResponse s u r)).state sid t
      = none := by
  cases hs : mapGet st.sessions s with
  | none => simpa [handleClientEvent, handlePermissionResponse, getSession, hs] using h
  | some session =>
      cases hp : mapGet session.pendingPermissions u with
      | none =>
          simpa [handleClientEvent, handlePermissionResponse, getSession, hs, hp] using h
      | some q =>
          have hstate : (handleClientEvent st (.permissionResponse s u r)).state.sessions
              = mapSet st.sessions s { session with
                  pendingPermissions := mapDelete session.pendingPermissions q.toolUseId } := by
            simp [handleClientEvent, handlePermissionResponse, getSession, hs, hp,
              invokeResolve]
          by_cases hss : s = sid
          · subst hss
            have hppt : mapGet session.pendingPermissions t = none := by
              simpa [lookupPending, getSession, hs] using h
            simp only [lookupPending, getSession, hstate, mapGet_mapSet_self]
            by_cases hqt : t = q.toolUseId
            · subst hqt
              exact mapGet_mapDelete_self _ _
            · rw [mapGet_mapDelete_ne _ _ _ hqt]
              exact hppt
          · simp only [lookupPending, getSession, hstate]
            rw [mapGet_mapSet_ne]
            · simpa [lookupPending, getSession] using h
            · exact fun hh => hss hh.symm

/-- Once the entry is absent, no permission response ever invokes its
callback again. -/
theorem countInvocations_zero_of_absent :
    ∀ (evs : List ClientEvent) (st : RouterState) (sid t : String),
      evs.all isPermissionResponse = true →
      lookupPending st sid t = none →
      countInvocations st sid t evs = 0 := by
  intro evs
  induction evs with
  | nil => intro st sid t _ _; rfl
  | cons ev rest ih =>
      intro st sid t hall habs
      simp only [List.all_cons, Bool.and_eq_true] at hall
      obtain ⟨hev, hrest⟩ := hall
      cases ev
      case permissionResponse s u r =>
        have hri : respInvokes st sid t (.permissionResponse s u r) = false := by
          simp [respInvokes, habs]
        simp only [countInvocations, hri, Bool.false_eq_true, if_false, Nat.zero_add]
        exact ih _ sid t hrest (lookupPending_none_preserved st sid t s u r habs)
      all_goals simp [isPermissionResponse] at hev

/-- Main counting argument: from a well-formed state holding the entry, a
sequence of permission responses invokes the entry's callback exactly once
when it contains a matching response, and never otherwise. -/
theorem countInvocations_once :
    ∀ (evs : List ClientEvent) (st : RouterState) (sid t : String) (p : PendingPermission),
      evs.all isPermissionResponse = true →
      statePendingWF st = true →
      lookupPending st sid t = some p →
      countInvocations st sid t evs
        = if evs.any (isMatchingResponse sid t) then 1 else 0 := by
  intro evs
  induction evs with
  | nil => intro st sid t p _ _ _; rfl
  | cons ev rest ih =>
      intro st sid t p hall hwf hl
      simp only [List.all_cons, Bool.and_eq_true] at hall
      obtain ⟨hev, hrest⟩ := hall
      cases ev
      case permissionResponse s u r =>
        by_cases hm : isMatchingResponse sid t (.permissionResponse s u r) = true
        · obtain ⟨rfl, rfl⟩ : s = sid ∧ u = t := by
            simpa [isMatchingResponse] using hm
          have hri : respInvokes st s u (.permissionResponse s u r) = true := by
            simp [respInvokes, isMatchingResponse, hl]
          have hz := countInvocations_zero_of_absent rest _ s u hrest
            (lookupPending_after_match st s u r p hwf hl)
          simp [countInvocations, hri, hz, List.any_cons, hm]
        · have hmf : isMatchingResponse sid t (.permissionResponse s u r) = false := by
            simpa using hm
          have hri : respInvokes st sid t (.permissionResponse s u r) = false := by
            simp [respInvokes, hmf]
          have hl' := lookupPending_preserved st sid t s u r hwf hmf
          have hwf' := statePendingWF_response st s u r hwf
          have hrec := ih _ sid t p hrest hwf' (hl'.trans hl)
          simp [countInvocations, hri, List.any_cons, hmf, hrec]
      all_goals simp [isPermissionResponse] at hev

/-- C3: a pending permission's resolve callback is invoked exactly once
across any sequence of `permission.response` events: from a well-formed
state (every pending entry keyed by its own `toolUseId`, as the runner
registers them) holding an entry at `(sid, t)`, the number of responses
that invoke that entry's callback is one exactly when a matching response
occurs (and zero otherwise); and whenever the sequence reaches its first
matching response, the callback has been invoked exactly once — the first
match resolves it, and no later matching response can invoke it again.
Across `permission.response` events no entry is ever added or replaced, so
the map slot identifies a single callback throughout. -/
theorem permission_resolved_exactly_once :
    (∀ evs st sid t p,
        evs.all isPermissionResponse = true →
        statePendingWF st = true →
        lookupPending st sid t = some p →
        countInvocations st sid t evs
          = if evs.any (isMatchingResponse sid t) then 1 else 0) ∧
    (∀ pre m post st sid t p,
        (pre ++ m :: post).all isPermissionResponse = true →
        statePendingWF st = true →
        lookupPending st sid t = some p →
        isMatchingResponse sid t m = true →
        countInvocations st sid t (pre ++ [m]) = 1) := by
  constructor
  · exact fun evs st sid t p => countInvocations_once evs st sid t p
  · intro pre m post st sid t p hall hwf hl hm
    simp only [List.all_append, List.all_cons, Bool.and_eq_true] at hall
    obtain ⟨hpre, hmr, _⟩ := hall
    have hall' : (pre ++ [m]).all isPermissionResponse = true := by
      simp [List.all_append, hpre, hmr]
    have := countInvocations_once (pre ++ [m]) st sid t p hall' hwf hl
    rw [this]
    simp [List.any_append, hm]

/-- Witness for C3: a duplicate matching response does not invoke the
callback a second time. -/
theorem permission_resolved_exactly_once_witness :
    countInvocations
        { initialState with sessions := [("s",
            { conversationId := "s", agentId := none, status := .running,
              pendingPermissions := [("t",
                { toolUseId := "t", toolName := "Bash", input := "ls", resolveId := 5 })],
              abortController := none })] }
        "s" "t"
        [.permissionResponse "s" "t" "allow", .permissionResponse "s" "t" "deny"] = 1 ∧
    countInvocations
        { initialState with sessions := [("s",
            { conversationId := "s", agentId := none, status := .running,
              pendingPermissions := [("t",
                { toolUseId := "t", toolName := "Bash", input := "ls", resolveId := 5 })],
              abortController := none })] }
        "s" "t" [.permissionResponse "s" "t" "allow"] = 1 := by
  constructor
  · have h := permission_resolved_exactly_once.1
      [.permissionResponse "s" "t" "allow", .permissionResponse "s" "t" "deny"]
      { initialState with sessions := [("s",
          { conversationId := "s", agentId := none, status := .running,
            pendingPermissions := [("t",
              { toolUseId := "t", toolName := "Bash", input := "ls", resolveId := 5 })],
            abortController := none })] }
      "s" "t"
      { toolUseId := "t", toolName := "Bash", input := "ls", resolveId := 5 }
      (by decide) (by decide) (by decide)
    rw [h]
    decide
  · have h := permission_resolved_exactly_once.2
      [] (.permissionResponse "s" "t" "allow") []
      { initialState with sessions := [("s",
          { conversationId := "s", agentId := none, status := .running,
            pendingPermissions := [("t",
              { toolUseId := "t", toolName := "Bash", input := "ls", resolveId := 5 })],
            abortController := none })] }
      "s" "t"
      { toolUseId := "t", toolName := "Bash", input := "ls", resolveId := 5 }
      (by decide) (by decide) (by decide) (by decide)
    simpa using h

end LettaCowork
